import Mathlib

/-!
Shallow embedding of the RPC client core of `myGoRPC` (file `client/client.go`).

Modelling decisions:
* Go errors are values of `GoErr`; the sentinel `ErrShutdown` is its own
  constructor so that identity comparison with it is exact.
* A `Call` record models the Go `Call` struct.  The `id` field models the
  object identity of the heap-allocated `*Call` (the pointer); `doneCap`
  models the capacity of the `Done` channel.  The opaque `Args`/`Reply`
  payloads are not represented: no verified property observes them.
* The `Done` channels are modelled by a single event log in the client
  state: `call.done()` appends the call value (at delivery time) to
  `events`.  "Exactly one completion event for a call" becomes "exactly one
  entry with that call's `id` is appended".
* `client.pending` (a Go map `uint64 → *Call`) is an association list from
  sequence number to the stored call record; insertion overwrites an
  existing key, lookup returns `none` when absent, delete is a no-op when
  absent — the same observable contract as the Go map.
* The codec is the external collaborator: outcomes of `cc.Write`,
  `cc.ReadHeader` and `cc.ReadBody` are injected as parameters
  (`Option GoErr`, where `none` means the nil error).
* Locks (`mu`, `sending`) serialize the atomic sections; the embedding
  makes each locked section one pure function, and races are analysed by
  composing those sections in both orders.
* `client.seq` and `Call.Seq` are `uint64` in the source.  They are
  carried as `Nat`, and the one arithmetic operation performed on them
  (`client.seq++` in `registerCall`) wraps modulo `2^64` (`U64`), so every
  value that arises is a faithful `uint64` value.
-/

inductive GoErr where
  | errShutdown
  | errStr (s : String)
deriving DecidableEq, Repr

/-- `err.Error()` in Go: the message of an error value. -/
def GoErr.message : GoErr → String
  | .errShutdown => "connection has been shut down"
  | .errStr s => s

/-- The modulus of Go's `uint64`: `client.seq` and `Call.Seq` are `uint64`,
so arithmetic on them wraps modulo `2^64`. -/
def U64 : Nat := 2 ^ 64

/-- The `codec.Header` struct: Service, Method, Seq, Error. -/
structure Header where
  Service : String
  Method : String
  Seq : Nat
  Error : String
deriving DecidableEq, Repr

/-- The `Call` struct of `client.go`.  `id` models the pointer identity of
the heap object; `doneCap` the capacity of the `Done` channel. -/
structure Call where
  id : Nat
  Seq : Nat
  Service : String
  Method : String
  Error : Option GoErr
  doneCap : Nat
deriving DecidableEq, Repr

/-- The mutable per-connection `Client` state: sequence counter, pending
map, the two lifecycle flags, the reusable request header, and the log of
completion events delivered on `Done` channels. -/
structure ClientState where
  seq : Nat
  pending : List (Nat × Call)
  closing : Bool
  shutdown : Bool
  header : Header
  events : List Call
deriving DecidableEq, Repr

/-- Go map lookup `client.pending[seq]` (`nil` when absent). -/
def mapLookup (m : List (Nat × Call)) (k : Nat) : Option Call :=
  (m.find? (fun p => p.1 = k)).map (·.2)

/-- Go map assignment `client.pending[k] = v` (overwrite or add). -/
def mapInsert (m : List (Nat × Call)) (k : Nat) (v : Call) : List (Nat × Call) :=
  if (m.find? (fun p => p.1 = k)).isSome then
    m.map (fun p => if p.1 = k then (k, v) else p)
  else
    m ++ [(k, v)]

/-- Go map `delete(client.pending, k)` (no-op when absent). -/
def mapDelete (m : List (Nat × Call)) (k : Nat) : List (Nat × Call) :=
  m.filter (fun p => ¬ p.1 = k)

/-- `call.done()`: send the call value on its `Done` channel, recorded as
one appended completion event. -/
def done (st : ClientState) (call : Call) : ClientState :=
  { st with events := st.events ++ [call] }

/-- `newClientCodec`: the freshly constructed client — `seq` starts at 1
(0 means invalid call), empty pending map, both flags false. -/
def newClientCodec : ClientState :=
  { seq := 1
    pending := []
    closing := false
    shutdown := false
    header := { Service := "", Method := "", Seq := 0, Error := "" }
    events := [] }

/-- `Client.Close`: under `mu`, return `ErrShutdown` if already closing;
otherwise set `closing` and return the codec's close result (injected as
`ccCloseRes`). -/
def Close (st : ClientState) (ccCloseRes : Option GoErr) :
    Option GoErr × ClientState :=
  if st.closing then (some .errShutdown, st)
  else (ccCloseRes, { st with closing := true })

/-- `Client.IsAvailable`: neither shut down nor closing. -/
def IsAvailable (st : ClientState) : Bool :=
  !st.shutdown && !st.closing

/-- `Client.registerCall`: under `mu`, fail with `ErrShutdown` when closing
or shut down; otherwise assign `client.seq` to the call, store it in
`pending`, increment the counter (`client.seq++` on a `uint64`, so the
increment wraps modulo `2^64`), and return the assigned sequence.
Returns the result pair `(seq, err)`, the new state, and the (mutated)
call. -/
def registerCall (st : ClientState) (call : Call) :
    (Nat × Option GoErr) × ClientState × Call :=
  if st.closing || st.shutdown then
    ((0, some .errShutdown), st, call)
  else
    let call' := { call with Seq := st.seq }
    (((call'.Seq, none),
      { st with
          pending := mapInsert st.pending call'.Seq call'
          seq := (st.seq + 1) % U64 },
      call'))

/-- `Client.removeCall`: under `mu`, look up the call for `seq`, delete the
entry, and return the call (or `none`). -/
def removeCall (st : ClientState) (seq : Nat) : Option Call × ClientState :=
  (mapLookup st.pending seq, { st with pending := mapDelete st.pending seq })

/-- `Client.terminateCalls`: under `sending` and `mu`, set `shutdown`, then
set the error field of every pending call and deliver one completion event
to each.  The pending map is NOT cleared by the source. -/
def terminateCalls (st : ClientState) (err : GoErr) : ClientState :=
  let pending' := st.pending.map (fun p => (p.1, { p.2 with Error := some err }))
  { st with
      shutdown := true
      pending := pending'
      events := st.events ++ pending'.map (·.2) }

/-- The write-failure cleanup inside `Client.send`: remove the call by its
sequence; if still present, set its error to the write error and deliver
completion; if absent, do nothing (the receiver owns completion). -/
def sendWriteFailCleanup (st : ClientState) (seq : Nat) (writeErr : GoErr) :
    ClientState :=
  let (call?, st') := removeCall st seq
  match call? with
  | none => st'
  | some call => done st' { call with Error := some writeErr }

/-- `Client.send`: under `sending`, register the call (on failure set its
error and deliver completion); otherwise populate the reusable header and
write header+body through the codec (`writeRes` is the injected outcome of
`cc.Write`); on write failure run the removal/cleanup.  Returns the new
state together with the final value of the call object. -/
def send (st : ClientState) (call : Call) (writeRes : Option GoErr) :
    ClientState × Call :=
  let ((seq, regErr), st1, call1) := registerCall st call
  match regErr with
  | some e =>
      let call2 := { call1 with Error := some e }
      (done st1 call2, call2)
  | none =>
      let st2 := { st1 with
        header := { Service := call1.Service, Method := call1.Method,
                    Seq := seq, Error := "" } }
      match writeRes with
      | none => (st2, call1)
      | some e =>
          match removeCall st2 seq with
          | (none, st3) => (st3, call1)
          | (some c, st3) =>
              let c' := { c with Error := some e }
              (done st3 c', c')

/-- One wire item seen by the receive loop: either `cc.ReadHeader` fails
with an error, or it yields a header and the subsequent `cc.ReadBody`
(into the reply target or into nil) returns `bodyRes`. -/
inductive RecvItem where
  | headerErr (e : GoErr)
  | resp (h : Header) (bodyRes : Option GoErr)
deriving DecidableEq, Repr

/-- One iteration body of `Client.receive` after a header `h` was read:
remove the call for `h.Seq`; if absent, read-and-discard the body; if the
header carries a server error, set it, discard the body, deliver
completion; otherwise read the body into the reply, on failure set a
"reading body" error, and deliver completion either way.  Returns the new
state and the iteration's `err` (the loop continues only while it is
`none`). -/
def receiveStep (st : ClientState) (h : Header) (bodyRes : Option GoErr) :
    ClientState × Option GoErr :=
  let (call?, st1) := removeCall st h.Seq
  match call? with
  | none => (st1, bodyRes)
  | some call =>
      if h.Error ≠ "" then
        (done st1 { call with Error := some (.errStr h.Error) }, bodyRes)
      else
        match bodyRes with
        | none => (done st1 call, none)
        | some e =>
            (done st1 { call with Error := some (.errStr ("reading body " ++ e.message)) },
             some e)

/-- The `for err == nil` loop of `Client.receive`, driven by a finite list
of wire items: process items until one produces a non-nil `err`; return
the state, the terminal error (`none` when the item list ran out with the
loop still blocked on the next header), and the unconsumed items. -/
def receiveRun (st : ClientState) : List RecvItem →
    ClientState × Option GoErr × List RecvItem
  | [] => (st, none, [])
  | .headerErr e :: rest => (st, some e, rest)
  | .resp h bodyRes :: rest =>
      match receiveStep st h bodyRes with
      | (st', none) => receiveRun st' rest
      | (st', some e) => (st', some e, rest)

/-- `Client.receive` on a wire that eventually fails: run the loop, then
`terminateCalls` with the error that broke it. -/
def receive (st : ClientState) (items : List RecvItem) : ClientState :=
  match receiveRun st items with
  | (st', some e, _) => terminateCalls st' e
  | (st', none, _) => st'

/-- Result of `Client.Go`: either `log.Panic` fired, or the call and the
post-`send` state. -/
inductive GoResult where
  | panicked (msg : String)
  | ok (call : Call) (st : ClientState)
deriving DecidableEq, Repr

/-- `Client.Go`: with a nil `done` channel allocate one of capacity 10;
with a caller-supplied unbuffered channel, `log.Panic`; otherwise build the
call and `send` it, returning the call. -/
def Go (st : ClientState) (id : Nat) (service method : String)
    (doneCh : Option Nat) (writeRes : Option GoErr) : GoResult :=
  match doneCh with
  | none =>
      let call : Call := { id := id, Seq := 0, Service := service,
                           Method := method, Error := none, doneCap := 10 }
      let (st', call') := send st call writeRes
      .ok call' st'
  | some c =>
      if c = 0 then .panicked "rpc client: done channel is unbuffered"
      else
        let call : Call := { id := id, Seq := 0, Service := service,
                             Method := method, Error := none, doneCap := c }
        let (st', call') := send st call writeRes
        .ok call' st'

/-- `Client.Call`: `Go` with a capacity-1 channel, then block on `Done`.
The blocking read is modelled by looking the delivered event up in the
event log: `none` means no completion has been delivered yet (the caller
is still blocked), `some e` means the read returned a call whose `Error`
is `e`. -/
def Call.sync (st : ClientState) (id : Nat) (service method : String)
    (writeRes : Option GoErr) : Option (Option GoErr) × ClientState :=
  match Go st id service method (some 1) writeRes with
  | .panicked _ => (none, st)
  | .ok _ st' =>
      match st'.events.find? (fun c => c.id = id) with
      | none => (none, st')
      | some c => (some c.Error, st')

/-- Completion events delivered for the call with identity `i` in state
`st`. -/
def eventsFor (st : ClientState) (i : Nat) : List Call :=
  st.events.filter (fun c => c.id = i)

/-- A sequence of `registerCall`s on one client (the registration half of
N submissions), returning the list of `(seq, err)` results and the final
state. -/
def registerAll (st : ClientState) : List Call → List (Nat × Option GoErr) × ClientState
  | [] => ([], st)
  | c :: cs =>
      let (r, st1, _) := registerCall st c
      let (rs, st2) := registerAll st1 cs
      (r :: rs, st2)

/-- A freshly built `Call` as `Client.Go` builds it (before `send`). -/
def mkCall (i : Nat) (svc mth : String) : Call :=
  { id := i, Seq := 0, Service := svc, Method := mth, Error := none, doneCap := 10 }

/-! ### Concrete fixtures used by witnesses and counterexamples -/

def callA : Call := mkCall 7 "Arith" "Add"

def callB : Call := mkCall 8 "Arith" "Mul"

/-- A client with `callA` registered at sequence 1 and `callB` at
sequence 2 (what two successful registrations on a fresh client produce). -/
def stPend : ClientState :=
  { newClientCodec with
      seq := 3
      pending := [(1, { callA with Seq := 1 }), (2, { callB with Seq := 2 })] }

/-- Response header for sequence 1 (success). -/
def hdrA : Header := { Service := "Arith", Method := "Add", Seq := 1, Error := "" }

/-- Response header for sequence 2 (success). -/
def hdrB : Header := { Service := "Arith", Method := "Mul", Seq := 2, Error := "" }

/-- Response header for a sequence with no pending call. -/
def hdrOrphan : Header := { Service := "Arith", Method := "Add", Seq := 5, Error := "" }

/-- A wire response for sequence 1 whose body fails to deserialize. -/
def decodeFailItem : RecvItem := .resp hdrA (some (.errStr "gob decode failure"))

/-- A well-formed wire response for sequence 2. -/
def okItemB : RecvItem := .resp hdrB none

/-- A client the user has closed. -/
def stClosed : ClientState := { newClientCodec with closing := true }

/-- A client shut down by the receiver (error-initiated). -/
def stDown : ClientState := { newClientCodec with shutdown := true }

/-! ### Helper lemmas about the map model -/

theorem mapLookup_cons_self {p : Nat × Call} {m : List (Nat × Call)} {k : Nat}
    (h : p.1 = k) : mapLookup (p :: m) k = some p.2 := by
  simp [mapLookup, List.find?, h]

theorem mapLookup_cons_ne {p : Nat × Call} {m : List (Nat × Call)} {k : Nat}
    (h : ¬ p.1 = k) : mapLookup (p :: m) k = mapLookup m k := by
  simp [mapLookup, List.find?, h]

theorem mapInsert_cons_ne {p : Nat × Call} {m : List (Nat × Call)} {k : Nat}
    {v : Call} (h : ¬ p.1 = k) : mapInsert (p :: m) k v = p :: mapInsert m k v := by
  by_cases hm : ((m.find? (fun q => q.1 = k)).isSome : Prop)
  · simp [mapInsert, List.find?, h, hm]
  · simp [mapInsert, List.find?, h, hm]

theorem mapLookup_mapInsert_self (m : List (Nat × Call)) (k : Nat) (v : Call) :
    mapLookup (mapInsert m k v) k = some v := by
  induction m with
  | nil => simp [mapInsert, mapLookup, List.find?]
  | cons p m ih =>
      by_cases h : p.1 = k
      · simp [mapInsert, mapLookup, List.find?, h]
      · rw [mapInsert_cons_ne h, mapLookup_cons_ne h]; exact ih

theorem mapLookup_eq_none_iff {m : List (Nat × Call)} {k : Nat} :
    mapLookup m k = none ↔ ∀ p ∈ m, ¬ p.1 = k := by
  simp [mapLookup, List.find?_eq_none]

theorem mapDelete_of_lookup_none {m : List (Nat × Call)} {k : Nat}
    (h : mapLookup m k = none) : mapDelete m k = m := by
  rw [mapLookup_eq_none_iff] at h
  unfold mapDelete
  rw [List.filter_eq_self]
  intro a ha
  simpa using h a ha

theorem mapDelete_cons (p : Nat × Call) (m : List (Nat × Call)) (k : Nat) :
    mapDelete (p :: m) k =
      if p.1 = k then mapDelete m k else p :: mapDelete m k := by
  by_cases h : p.1 = k <;> simp [mapDelete, List.filter_cons, h]

theorem mapLookup_mapDelete_self (m : List (Nat × Call)) (k : Nat) :
    mapLookup (mapDelete m k) k = none := by
  induction m with
  | nil => simp [mapDelete, mapLookup, List.find?]
  | cons p m ih =>
      rw [mapDelete_cons]
      by_cases h : p.1 = k
      · simpa [h] using ih
      · rw [if_neg h, mapLookup_cons_ne h]
        exact ih

theorem eventsFor_done (st : ClientState) (c : Call) (i : Nat) :
    eventsFor (done st c) i =
      eventsFor st i ++ (if c.id = i then [c] else []) := by
  simp [eventsFor, done, List.filter_append, List.filter]
  split <;> simp_all

theorem eventsFor_terminateCalls (st : ClientState) (e : GoErr) (i : Nat) :
    (eventsFor (terminateCalls st e) i).length =
      (eventsFor st i).length + st.pending.countP (fun p => p.2.id = i) := by
  simp [eventsFor, terminateCalls, List.filter_append, List.countP_eq_length_filter,
    List.filter_map, List.length_map]
  rfl

theorem sendWriteFailCleanup_absent {st : ClientState} {s : Nat} {w : GoErr}
    (h : mapLookup st.pending s = none) : sendWriteFailCleanup st s w = st := by
  simp [sendWriteFailCleanup, removeCall, h, mapDelete_of_lookup_none h]

theorem send_doneCap (st : ClientState) (call : Call) (w : Option GoErr) :
    ((send st call w).2).doneCap = call.doneCap := by
  by_cases h : (st.closing || st.shutdown : Bool)
  · simp [send, registerCall, h]
  · cases w with
    | none => simp [send, registerCall, h]
    | some e =>
        simp [send, registerCall, h, removeCall, mapLookup_mapInsert_self]

/-- Claim C6: if either `closing` or `shutdown` is true, `registerCall`
fails with `ErrShutdown` and leaves all client state (and the call)
unchanged; otherwise it assigns the current sequence number to the call,
stores the call under that number in `pending`, increments the counter
(a `uint64`, wrapping modulo `2^64`), and returns the assigned number. -/
theorem registerCall_spec (st : ClientState) (call : Call) :
    (st.closing = true ∨ st.shutdown = true →
        registerCall st call = ((0, some .errShutdown), st, call)) ∧
    (st.closing = false → st.shutdown = false →
        registerCall st call =
          ((st.seq, none),
           { st with
               pending := mapInsert st.pending st.seq { call with Seq := st.seq }
               seq := (st.seq + 1) % U64 },
           { call with Seq := st.seq })) := by
  constructor
  · rintro (h | h) <;> simp [registerCall, h]
  · intro h1 h2
    simp [registerCall, h1, h2]

theorem registerCall_spec_witness :
    registerCall stClosed callA = ((0, some .errShutdown), stClosed, callA) ∧
    registerCall newClientCodec callA =
      ((1, none),
       { newClientCodec with
           pending := mapInsert newClientCodec.pending 1 { callA with Seq := 1 }
           seq := 2 },
       { callA with Seq := 1 }) := by
  exact ⟨(registerCall_spec stClosed callA).1 (Or.inl rfl),
         (registerCall_spec newClientCodec callA).2 rfl rfl⟩

/-- Claim C10: when `shutdown` is true but `closing` is false, the first
`Close` does not return `ErrShutdown`: it sets `closing` and returns the
codec's close result, because `Close` checks only the `closing` flag. -/
theorem Close_ignores_shutdown (st : ClientState) (r : Option GoErr)
    (h1 : st.shutdown = true) (h2 : st.closing = false) :
    Close st r = (r, { st with closing := true }) := by
  simp [Close, h2]

theorem Close_ignores_shutdown_witness :
    Close stDown none = (none, { stDown with closing := true }) :=
  Close_ignores_shutdown stDown none rfl rfl

/-- Claim C9: `Go` with a nil done channel allocates a completion channel
of default capacity 10 and returns the call; `Go` with a caller-supplied
channel of capacity zero panics up front. -/
theorem Go_doneChannel_spec (st : ClientState) (i : Nat) (svc mth : String)
    (w : Option GoErr) :
    (∃ c st', Go st i svc mth none w = .ok c st' ∧ c.doneCap = 10) ∧
    Go st i svc mth (some 0) w =
      .panicked "rpc client: done channel is unbuffered" := by
  constructor
  · refine ⟨(send st (mkCall i svc mth) w).2, (send st (mkCall i svc mth) w).1, ?_, ?_⟩
    · simp [Go, mkCall]
    · rw [send_doneCap]
      rfl
  · simp [Go]

/-- Claim C2 counterexample: `terminateCalls` does NOT clear the pending
registry — on a client with two pending calls, the registry still holds
two entries afterwards, so "after terminateCalls the pending registry is
empty" is false. -/
theorem terminateCalls_leaves_pending :
    ¬ ((terminateCalls stPend (.errStr "read fail")).pending = []) := by
  decide

/-- Claim C2 (amended): `terminateCalls err` sets `shutdown`, sets the
error field of every call still in the pending registry and delivers
exactly one completion event to each (the events appended are exactly one
per pending entry, carrying `err`), but it leaves the registry entries in
place rather than clearing them; every subsequent `registerCall` fails
with `ErrShutdown` and changes nothing. -/
theorem terminateCalls_spec (st : ClientState) (e : GoErr) :
    (terminateCalls st e).shutdown = true ∧
    (terminateCalls st e).events =
      st.events ++ st.pending.map (fun p => { p.2 with Error := some e }) ∧
    (terminateCalls st e).pending =
      st.pending.map (fun p => (p.1, { p.2 with Error := some e })) ∧
    (∀ i, (eventsFor (terminateCalls st e) i).length =
        (eventsFor st i).length + st.pending.countP (fun p => p.2.id = i)) ∧
    (∀ call, registerCall (terminateCalls st e) call =
        ((0, some .errShutdown), terminateCalls st e, call)) := by
  refine ⟨rfl, ?_, ?_, ?_, ?_⟩
  · simp [terminateCalls]
  · simp [terminateCalls]
  · intro i
    exact eventsFor_terminateCalls st e i
  · intro call
    simp [registerCall, terminateCalls]

theorem registerAll_cons_ok {st : ClientState} (h1 : st.closing = false)
    (h2 : st.shutdown = false) (c : Call) (cs : List Call) :
    registerAll st (c :: cs) =
      ((st.seq, none) ::
        (registerAll { st with
            pending := mapInsert st.pending st.seq { c with Seq := st.seq }
            seq := (st.seq + 1) % U64 } cs).1,
       (registerAll { st with
            pending := mapInsert st.pending st.seq { c with Seq := st.seq }
            seq := (st.seq + 1) % U64 } cs).2) := by
  simp [registerAll, registerCall, h1, h2]

theorem range'_map_mod (a len : Nat) :
    (List.range' (a % U64) len).map (fun n => n % U64) =
      (List.range' a len).map (fun n => n % U64) := by
  induction len generalizing a with
  | zero => simp
  | succ k ih =>
      rw [List.range'_succ a k 1, List.range'_succ (a % U64) k 1,
        List.map_cons, List.map_cons]
      refine congrArg₂ _ (Nat.mod_mod_of_dvd a dvd_rfl) ?_
      calc (List.range' (a % U64 + 1) k).map (fun n => n % U64)
          = (List.range' ((a % U64 + 1) % U64) k).map (fun n => n % U64) :=
            (ih (a % U64 + 1)).symm
        _ = (List.range' ((a + 1) % U64) k).map (fun n => n % U64) := by
            rw [Nat.mod_add_mod]
        _ = (List.range' (a + 1) k).map (fun n => n % U64) := ih (a + 1)

theorem registerAll_results (calls : List Call) (st : ClientState)
    (h1 : st.closing = false) (h2 : st.shutdown = false)
    (hlt : st.seq < U64) :
    (registerAll st calls).1 =
        (List.range' st.seq calls.length).map (fun n => (n % U64, none)) ∧
    (registerAll st calls).2.closing = false ∧
    (registerAll st calls).2.shutdown = false := by
  induction calls generalizing st with
  | nil => simpa [registerAll] using ⟨h1, h2⟩
  | cons c cs ih =>
      rw [registerAll_cons_ok h1 h2]
      have hpos : 0 < U64 := by norm_num [U64]
      have key := ih { st with
          pending := mapInsert st.pending st.seq { c with Seq := st.seq }
          seq := (st.seq + 1) % U64 } h1 h2 (Nat.mod_lt _ hpos)
      refine ⟨?_, key.2.1, key.2.2⟩
      rw [List.length_cons, List.range'_succ st.seq cs.length 1, List.map_cons,
        Nat.mod_eq_of_lt hlt]
      have hcomp : (fun n => ((n % U64 : Nat), (none : Option GoErr))) =
          (fun n => ((n : Nat), (none : Option GoErr))) ∘ (fun n => n % U64) := rfl
      have htail : (registerAll { st with
          pending := mapInsert st.pending st.seq { c with Seq := st.seq }
          seq := (st.seq + 1) % U64 } cs).1 =
          (List.range' (st.seq + 1) cs.length).map (fun n => (n % U64, none)) := by
        rw [key.1, hcomp, ← List.map_map, ← List.map_map, range'_map_mod]
      exact congrArg (fun l => ((st.seq, (none : Option GoErr)) :: l)) htail

/-- Claim C4 counterexample: the sequence counter is a `uint64` and wraps:
with `2^64 + 1` successful registrations from a fresh client, the
`2^64`-th registration is assigned the reserved number `0` (not in
`[1, N]`), and the assigned numbers are not pairwise distinct (`1` is
assigned twice) — refuting "distinct numbers in [1, N], never reused". -/
theorem registerCall_seq_wraparound :
    (0, (none : Option GoErr)) ∈
      (registerAll newClientCodec (List.replicate (U64 + 1) callA)).1 ∧
    ¬ ((registerAll newClientCodec
          (List.replicate (U64 + 1) callA)).1.map (·.1)).Nodup := by
  have h := registerAll_results (List.replicate (U64 + 1) callA) newClientCodec
    rfl rfl (by norm_num [U64, newClientCodec])
  have hseq : newClientCodec.seq = 1 := rfl
  rw [h.1, hseq, List.length_replicate]
  constructor
  · refine List.mem_map.mpr ⟨U64, List.mem_range'_1.mpr ⟨?_, ?_⟩, ?_⟩
    · norm_num [U64]
    · omega
    · simp [Nat.mod_self]
  · rw [List.map_map]
    have hcomp : ((fun p : Nat × Option GoErr => p.1) ∘
        fun n => (n % U64, none)) = (fun n => n % U64) := rfl
    rw [hcomp]
    have hsplit : List.range' 1 (U64 + 1) =
        List.range' 1 U64 ++ List.range' (1 + 1 * U64) 1 := by
      rw [List.range'_append 1 U64 1 1, Nat.add_comm 1 U64]
    rw [hsplit, List.map_append]
    intro hnd
    rcases List.nodup_append.mp hnd with ⟨-, -, hdisj⟩
    refine hdisj (a := 1) ?_ ?_
    · refine List.mem_map.mpr ⟨1, List.mem_range'_1.mpr ⟨le_refl 1, ?_⟩, ?_⟩
      · norm_num [U64]
      · norm_num [U64]
    · refine List.mem_map.mpr ⟨1 + 1 * U64, List.mem_range'_1.mpr ⟨?_, ?_⟩, ?_⟩
      · omega
      · omega
      · simp [Nat.add_mul_mod_self_right, Nat.mod_eq_of_lt (by norm_num [U64] : (1 : Nat) < U64)]

/-- Claim C4 (amended): the sequence counter is a `uint64`, so single-step
increments wrap modulo `2^64`; for every N below `2^64`, N successful
registrations from a fresh client assign sequence numbers in strict
registration order `1, 2, …, N` with no error, the assigned numbers are
pairwise distinct, each lies in `[1, N]`, and none is assigned twice;
once the counter wraps (N ≥ 2^64) numbers are reused. -/
theorem registerCall_sequence_numbers (calls : List Call)
    (hN : calls.length < U64) :
    (registerAll newClientCodec calls).1 =
        (List.range' 1 calls.length).map (fun n => (n, none)) ∧
    ((registerAll newClientCodec calls).1.map (·.1)).Nodup ∧
    (∀ s ∈ (registerAll newClientCodec calls).1.map (·.1),
        1 ≤ s ∧ s ≤ calls.length) := by
  have h := registerAll_results calls newClientCodec rfl rfl
    (by norm_num [U64, newClientCodec])
  have hseq : newClientCodec.seq = 1 := rfl
  have heq : (registerAll newClientCodec calls).1 =
      (List.range' 1 calls.length).map (fun n => (n, none)) := by
    rw [h.1, hseq]
    refine List.map_congr_left ?_
    intro n hn
    have hmem := List.mem_range'_1.mp hn
    have : n % U64 = n := Nat.mod_eq_of_lt (by omega)
    rw [this]
  refine ⟨heq, ?_, ?_⟩
  · rw [heq, List.map_map]
    have hcomp : ((fun p : Nat × Option GoErr => p.1) ∘ fun n => (n, none)) = id := rfl
    rw [hcomp, List.map_id]
    exact List.nodup_range' 1 calls.length 1
  · intro s hs
    rw [heq, List.map_map] at hs
    have hcomp : ((fun p : Nat × Option GoErr => p.1) ∘ fun n => (n, none)) = id := rfl
    rw [hcomp, List.map_id] at hs
    have hmem := List.mem_range'_1.mp hs
    omega

theorem registerCall_sequence_numbers_witness :
    (registerAll newClientCodec [callA, callB]).1 =
        (List.range' 1 2).map (fun n => (n, none)) ∧
    ((registerAll newClientCodec [callA, callB]).1.map (·.1)).Nodup ∧
    (∀ s ∈ (registerAll newClientCodec [callA, callB]).1.map (·.1),
        1 ≤ s ∧ s ≤ 2) :=
  registerCall_sequence_numbers [callA, callB] (by norm_num [U64])

/-- Claim C5: `Close` sets `closing` and closes the codec (returning the
codec's close result); a second `Close` returns `ErrShutdown` without
touching the state (the stream is not closed a second time); and after a
successful `Close` a subsequent `Go` completes its call with `ErrShutdown`
and a subsequent `Call` returns `ErrShutdown`. -/
theorem Close_spec (st : ClientState) (r r2 w : Option GoErr) (call : Call)
    (hcl : st.closing = false)
    (hid : st.events.find? (fun c => c.id = call.id) = none) :
    Close st r = (r, { st with closing := true }) ∧
    Close { st with closing := true } r2 =
      (some .errShutdown, { st with closing := true }) ∧
    (send { st with closing := true } call w).2.Error = some .errShutdown ∧
    (Call.sync { st with closing := true } call.id call.Service call.Method w).1 =
      some (some .errShutdown) := by
  refine ⟨by simp [Close, hcl], by simp [Close], by simp [send, registerCall], ?_⟩
  simp [Call.sync, Go, send, registerCall, done, List.find?_append, hid]

theorem Close_spec_witness :
    Close newClientCodec none = (none, { newClientCodec with closing := true }) ∧
    Close { newClientCodec with closing := true } none =
      (some .errShutdown, { newClientCodec with closing := true }) ∧
    (send { newClientCodec with closing := true } callA none).2.Error =
      some .errShutdown ∧
    (Call.sync { newClientCodec with closing := true }
        callA.id callA.Service callA.Method none).1 = some (some .errShutdown) :=
  Close_spec newClientCodec none none none callA rfl rfl

/-- Claim C7: when the receiver reads a header whose sequence has no
matching pending call and the discarding body read succeeds, the step
changes nothing (no completion is delivered) and the loop goes on to
process the remaining wire items; the absence of a matching call by itself
never terminates the receive loop. -/
theorem receive_orphan_response (st : ClientState) (h : Header)
    (rest : List RecvItem)
    (habs : mapLookup st.pending h.Seq = none) :
    receiveStep st h none = (st, none) ∧
    receiveRun st (.resp h none :: rest) = receiveRun st rest := by
  have hd := mapDelete_of_lookup_none habs
  have hstep : receiveStep st h none = (st, none) := by
    simp [receiveStep, removeCall, habs, hd]
  exact ⟨hstep, by simp [receiveRun, hstep]⟩

theorem receive_orphan_response_witness :
    receiveStep stPend hdrOrphan none = (stPend, none) ∧
    receiveRun stPend (.resp hdrOrphan none :: [okItemB]) =
      receiveRun stPend [okItemB] :=
  receive_orphan_response stPend hdrOrphan [okItemB] (by decide)

/-- Claim C3 counterexample: on a client with calls pending at sequences 1
and 2 and a wire carrying a decode-failing response for sequence 1
followed by a well-formed response for sequence 2, the receive loop stops
at the decode failure: the second response is left unread and the call at
sequence 2 is bulk-terminated with the body-read error instead of being
completed from its response — refuting "the receive loop continues reading
subsequent headers". -/
theorem receive_stops_after_decode_failure :
    (receiveRun stPend [decodeFailItem, okItemB]).2.2 = [okItemB] ∧
    (receiveRun stPend [decodeFailItem, okItemB]).2.1 =
      some (.errStr "gob decode failure") ∧
    eventsFor (receive stPend [decodeFailItem, okItemB]) callB.id =
      [{ callB with Seq := 2, Error := some (.errStr "gob decode failure") }] := by
  decide

/-- Claim C3 (amended): a failure to deserialize a response body is
delivered only to the matching call — its error is set to the
decode-failure description `"reading body …"` and its completion is
delivered — but the body-read error is returned into the loop condition,
so the receive loop terminates rather than reading subsequent headers. -/
theorem receive_decode_failure (st : ClientState) (h : Header) (e : GoErr)
    (call : Call) (rest : List RecvItem)
    (hpend : mapLookup st.pending h.Seq = some call) (herr : h.Error = "") :
    receiveStep st h (some e) =
      (done { st with pending := mapDelete st.pending h.Seq }
        { call with Error := some (.errStr ("reading body " ++ e.message)) },
       some e) ∧
    receiveRun st (.resp h (some e) :: rest) =
      (done { st with pending := mapDelete st.pending h.Seq }
        { call with Error := some (.errStr ("reading body " ++ e.message)) },
       some e, rest) := by
  have hstep : receiveStep st h (some e) =
      (done { st with pending := mapDelete st.pending h.Seq }
        { call with Error := some (.errStr ("reading body " ++ e.message)) },
       some e) := by
    simp [receiveStep, removeCall, hpend, herr]
  exact ⟨hstep, by simp [receiveRun, hstep]⟩

theorem receive_decode_failure_witness :
    receiveStep stPend hdrA (some (.errStr "gob decode failure")) =
      (done { stPend with pending := mapDelete stPend.pending hdrA.Seq }
        { callA with
            Seq := 1
            Error := some (.errStr ("reading body " ++
              (GoErr.errStr "gob decode failure").message)) },
       some (.errStr "gob decode failure")) :=
  (receive_decode_failure stPend hdrA (.errStr "gob decode failure")
    { callA with Seq := 1 } [] (by decide) rfl).1

/-- Claim C8 counterexample: on a closed client, `send` (the path under
`Go`/`Call`) sets the call's error to `ErrShutdown` and delivers it on the
call's completion channel — refuting "never delivered to a caller via a
call's completion channel". -/
theorem errShutdown_on_completion_channel :
    ∃ c ∈ (send stClosed callA none).1.events,
      c.Error = some GoErr.errShutdown := by
  decide

/-- Claim C8 (amended): `ErrShutdown` is returned synchronously by
`registerCall` and by a `Close` on an already-closing client; but when
`Go`/`Call` is invoked on an unavailable client, the `send` path sets the
call's error to `ErrShutdown` and delivers it through the call's
completion channel. -/
theorem errShutdown_propagation (st : ClientState) (call : Call)
    (r w : Option GoErr) (h : st.closing = true ∨ st.shutdown = true) :
    (registerCall st call).1 = (0, some .errShutdown) ∧
    (st.closing = true → Close st r = (some .errShutdown, st)) ∧
    send st call w =
      (done st { call with Error := some .errShutdown },
       { call with Error := some .errShutdown }) := by
  refine ⟨?_, fun hc => by simp [Close, hc], ?_⟩
  · rcases h with h | h <;> simp [registerCall, h]
  · rcases h with h | h <;> simp [send, registerCall, h]

theorem errShutdown_propagation_witness :
    (registerCall stClosed callA).1 = (0, some .errShutdown) ∧
    Close stClosed none = (some .errShutdown, stClosed) ∧
    send stClosed callA none =
      (done stClosed { callA with Error := some .errShutdown },
       { callA with Error := some .errShutdown }) :=
  ⟨(errShutdown_propagation stClosed callA none none (Or.inl rfl)).1,
   (errShutdown_propagation stClosed callA none none (Or.inl rfl)).2.1 rfl,
   (errShutdown_propagation stClosed callA none none (Or.inl rfl)).2.2⟩

/-- Claim C1: exactly one completion event is delivered per call on every
code path — (a) normal reply, (b) remote error, (c) decode failure,
(d) a receiver finding the call absent delivers nothing, (e) send/write
failure, (f) registration failure, (g) bulk termination delivers exactly
one event to a call pending once; and for a write failure racing the
receiver, in both interleavings ((h) sender removes first, (i) receiver
removes first) whichever path removes the call from the pending registry
delivers its unique completion and the losing path delivers nothing. -/
theorem completion_exactly_once
    (st : ClientState) (call : Call) (h : Header) (bodyRes wr : Option GoErr)
    (e w : GoErr) :
    (mapLookup st.pending h.Seq = some call → h.Error = "" →
      (receiveStep st h none).1.events = st.events ++ [call]) ∧
    (mapLookup st.pending h.Seq = some call → ¬ h.Error = "" →
      (receiveStep st h bodyRes).1.events =
        st.events ++ [{ call with Error := some (.errStr h.Error) }]) ∧
    (mapLookup st.pending h.Seq = some call → h.Error = "" →
      (receiveStep st h (some e)).1.events =
        st.events ++
          [{ call with Error := some (.errStr ("reading body " ++ e.message)) }]) ∧
    (mapLookup st.pending h.Seq = none →
      (receiveStep st h bodyRes).1.events = st.events) ∧
    (st.closing = false → st.shutdown = false →
      (send st call (some w)).1.events =
        st.events ++ [{ call with Seq := st.seq, Error := some w }]) ∧
    (st.closing = true ∨ st.shutdown = true →
      (send st call wr).1.events =
        st.events ++ [{ call with Error := some .errShutdown }]) ∧
    (st.pending.countP (fun p => p.2.id = call.id) = 1 →
      (eventsFor (terminateCalls st e) call.id).length =
        (eventsFor st call.id).length + 1) ∧
    (mapLookup st.pending h.Seq = some call →
      (sendWriteFailCleanup st h.Seq w).events =
        st.events ++ [{ call with Error := some w }] ∧
      (receiveStep (sendWriteFailCleanup st h.Seq w) h bodyRes).1.events =
        st.events ++ [{ call with Error := some w }]) ∧
    (mapLookup st.pending h.Seq = some call → h.Error = "" →
      (receiveStep st h none).1.events = st.events ++ [call] ∧
      sendWriteFailCleanup (receiveStep st h none).1 h.Seq w =
        (receiveStep st h none).1) := by
  refine ⟨?_, ?_, ?_, ?_, ?_, ?_, ?_, ?_, ?_⟩
  · intro hpend herr
    simp [receiveStep, removeCall, hpend, herr, done]
  · intro hpend herr
    simp [receiveStep, removeCall, hpend, herr, done]
  · intro hpend herr
    simp [receiveStep, removeCall, hpend, herr, done]
  · intro habs
    simp [receiveStep, removeCall, habs]
  · intro h1 h2
    simp [send, registerCall, h1, h2, removeCall, mapLookup_mapInsert_self, done]
  · rintro (h1 | h1) <;> simp [send, registerCall, h1, done]
  · intro hcount
    rw [eventsFor_terminateCalls, hcount]
  · intro hpend
    have hclean : sendWriteFailCleanup st h.Seq w =
        done { st with pending := mapDelete st.pending h.Seq }
          { call with Error := some w } := by
      simp [sendWriteFailCleanup, removeCall, hpend]
    refine ⟨by rw [hclean]; simp [done], ?_⟩
    rw [hclean]
    simp [receiveStep, removeCall, done, mapLookup_mapDelete_self]
  · intro hpend herr
    have hstep : receiveStep st h none =
        (done { st with pending := mapDelete st.pending h.Seq } call, none) := by
      simp [receiveStep, removeCall, hpend, herr]
    refine ⟨by rw [hstep]; simp [done], ?_⟩
    rw [hstep]
    exact sendWriteFailCleanup_absent (by simp [done, mapLookup_mapDelete_self])

theorem completion_exactly_once_witness :
    (receiveStep stPend hdrA none).1.events =
      stPend.events ++ [{ callA with Seq := 1 }] ∧
    (send stClosed callB none).1.events =
      stClosed.events ++ [{ callB with Error := some .errShutdown }] ∧
    (eventsFor (terminateCalls stPend (.errStr "dead")) callA.id).length =
      (eventsFor stPend callA.id).length + 1 ∧
    (sendWriteFailCleanup stPend hdrA.Seq (.errStr "w")).events =
      stPend.events ++ [{ callA with Seq := 1, Error := some (.errStr "w") }] ∧
    sendWriteFailCleanup (receiveStep stPend hdrA none).1 hdrA.Seq (.errStr "w") =
      (receiveStep stPend hdrA none).1 := by
  obtain ⟨a, b, c, d, e', f, g, hh, i⟩ :=
    completion_exactly_once stPend { callA with Seq := 1 } hdrA none none
      (.errStr "dead") (.errStr "w")
  obtain ⟨a2, b2, c2, d2, e2, f2, g2, hh2, i2⟩ :=
    completion_exactly_once stClosed callB hdrA none none
      (.errStr "dead") (.errStr "w")
  exact ⟨a (by decide) rfl, f2 (Or.inl rfl), g (by decide),
         (hh (by decide)).1, (i (by decide) rfl).2⟩
